import Mathlib

/-!
# wacli: the `auth`, `auth status` and `auth logout` commands

A shallow embedding of `cmd/wacli/auth.go`.  The three `RunE` bodies are
translated statement by statement.  Everything they call that lives outside
the file (`newApp`, `closeApp`, the methods of the app and of its session
client, `out.WriteJSON`, `qrterminal.GenerateHalfBlock`) is a collaborator:
its result is supplied by an environment `Env`, and every call is appended,
with its arguments and its result, to the trace of the run.  A run is the
trace together with the error the `RunE` body returns, or the fact that it
ended in a panic: `qrterminal.GenerateHalfBlock` does not return on a code
too long for a QR code, and `auth.go` recovers from no panic.
-/

namespace Wacli

/-! ## Data model -/

/-- A Go `error` value that is not nil. -/
structure Err where
  msg : String
deriving DecidableEq, Repr

/-- The `*app.App` handle returned by `newApp`. -/
structure App where
  id : Nat
deriving DecidableEq, Repr

/-- The lock handle returned by `newApp` next to the app. -/
structure Lock where
  id : Nat
deriving DecidableEq, Repr

/-- The part of `rootFlags` read in `auth.go`: the global JSON switch. -/
structure rootFlags where
  asJSON : Bool
deriving DecidableEq, Repr

/-- The two files the commands write to: `os.Stdout` and `os.Stderr`. -/
inductive File where
  | Stdout
  | Stderr
deriving DecidableEq, Repr

/-- `appPkg.SyncMode`: the constants of the sync engine. -/
inductive SyncMode where
  | SyncModeBootstrap
  | SyncModeFollow
  | SyncModeOnce
deriving DecidableEq, Repr

/-- A `time.Duration`: a count of nanoseconds. -/
abbrev Duration := Int

/-- The constant `time.Second`. -/
def Second : Duration := 1000000000

/-- The function literal of `newAuthCmd` passed as `OnQRCode`.  It captures
the variable `qrFormat`, so the closure is its captured value. -/
structure QRCallback where
  qrFormat : String
deriving DecidableEq, Repr

/-- `appPkg.SyncOptions` as filled in by `newAuthCmd`. -/
structure SyncOptions where
  Mode : SyncMode
  AllowQR : Bool
  DownloadMedia : Bool
  RefreshContacts : Bool
  RefreshGroups : Bool
  IdleExit : Duration
  OnQRCode : QRCallback
deriving DecidableEq, Repr

/-- `appPkg.SyncResult`, of which `auth.go` reads `MessagesStored`. -/
structure SyncResult where
  MessagesStored : Int
deriving DecidableEq, Repr

/-- A value stored in the maps handed to `out.WriteJSON`. -/
inductive JSONValue where
  | bool (b : Bool)
  | int (n : Int)
deriving DecidableEq, Repr

/-- A `map[string]any` literal: its keys with their values. -/
abbrev JSONMap := List (String × JSONValue)

/-- What the file itself puts on a stream. `print` is a call of
`fmt.Fprintln` or `fmt.Fprintf` with the exact bytes written; `qrHalfBlock`
is a call `qrterminal.GenerateHalfBlock(code, qrterminal.M, w)` that rendered
the code on `w` and returned. -/
inductive Write where
  | print (w : File) (s : String)
  | qrHalfBlock (code : String) (w : File)
deriving DecidableEq, Repr

/-- The file a write goes to. -/
def Write.file : Write → File
  | .print w _ => w
  | .qrHalfBlock _ w => w

/-- One step of a run, in program order.  Calls carry their arguments and
the result the collaborator gave.  `onQRCode` is one invocation of the
callback by `Sync`, with the writes its body made. -/
inductive Event where
  | notifyContext
  | stop
  | withTimeout
  | cancel
  | newApp (flags : rootFlags) (p3 p4 : Bool) (err : Option Err)
  | closeApp (a : App) (lk : Lock)
  | SyncBegin (a : App) (opts : SyncOptions)
  | onQRCode (cb : QRCallback) (code : String) (writes : List Write)
  | SyncEnd (a : App) (res : SyncResult) (err : Option Err)
  | OpenWA (a : App) (err : Option Err)
  | IsAuthed (a : App) (authed : Bool)
  | EnsureAuthed (a : App) (err : Option Err)
  | Connect (a : App) (allowQR : Bool) (onQR : Option QRCallback) (err : Option Err)
  | Logout (a : App) (err : Option Err)
  | out (w : Write)
  | WriteJSON (w : File) (v : JSONMap) (err : Option Err)
deriving DecidableEq, Repr

/-- A run of a `RunE` body to its end: what happened, the returned error, and
whether the run ended in a panic instead of a return.  A run that panicked
returned nothing, and its `err` is `none`. -/
structure Run where
  trace : List Event
  err : Option Err
  panicked : Bool
deriving DecidableEq, Repr

/-- What `Sync` does as seen from the command: the pairing codes it hands to
`OnQRCode`, in order, and the pair `(res, err)` it returns.  `recovers` says
what it does with a panic of the callback: recover from it and carry on, or
let it unwind, in which case `Sync` does not return and the later codes are
never handed out. -/
structure SyncOutcome where
  codes : List String
  res : SyncResult
  err : Option Err
  recovers : Bool
deriving DecidableEq, Repr

/-- The collaborators of `auth.go`.  Those of the app are called at most once
in a run, so a result per argument list describes any behaviour they can
show (`Sync` in follow mode returns when its context is cancelled).
`GenerateHalfBlock code` says whether
`qrterminal.GenerateHalfBlock(code, qrterminal.M, w)` renders the code and
returns (`true`), or panics before it has written anything (`false`), as it
does on a code beyond the capacity of a QR code. -/
structure Env where
  newApp : rootFlags → Bool → Bool → Except Err (App × Lock)
  Sync : App → SyncOptions → SyncOutcome
  GenerateHalfBlock : String → Bool
  OpenWA : App → Option Err
  IsAuthed : App → Bool
  EnsureAuthed : App → Option Err
  Connect : App → Bool → Option QRCallback → Option Err
  Logout : App → Option Err
  WriteJSON : File → JSONMap → Option Err

/-! ## The `auth` command -/

/-- The local variables `follow`, `idleExit`, `downloadMedia`, `qrFormat`
of `newAuthCmd`, as the flag set leaves them after parsing. -/
structure AuthVars where
  follow : Bool
  idleExit : Duration
  downloadMedia : Bool
  qrFormat : String
deriving DecidableEq, Repr

/-- The flags of `auth` given on the command line; `none` is a flag that was
not given. -/
structure AuthArgs where
  follow : Option Bool
  idleExit : Option Duration
  downloadMedia : Option Bool
  qrFormat : Option String
deriving DecidableEq, Repr

/-- The four `cmd.Flags().…Var` lines: each variable holds the value given
on the command line, or the registered default. -/
def bindFlags (args : AuthArgs) : AuthVars :=
  { follow := args.follow.getD false
    idleExit := args.idleExit.getD (30 * Second)
    downloadMedia := args.downloadMedia.getD false
    qrFormat := args.qrFormat.getD "terminal" }

/-- The body of the `OnQRCode` function literal: the writes it makes, and
whether it returns.  `render code` is the behaviour of
`qrterminal.GenerateHalfBlock` on the code: when the renderer panics, the
callback has written the prompt only and does not return. -/
def QRCallback.call (cb : QRCallback) (render : String → Bool) (code : String) :
    List Write × Bool :=
  if cb.qrFormat = "text" then
    ([.print .Stdout (code ++ "\n")], true)
  else if render code then
    ([.print .Stderr ("\nScan this QR code with WhatsApp (Linked Devices):" ++ "\n"),
      .qrHalfBlock code .Stderr,
      .print .Stderr "\n"], true)
  else
    ([.print .Stderr ("\nScan this QR code with WhatsApp (Linked Devices):" ++ "\n")], false)

/-- The callback invocations `Sync` makes, one per code, on the flow of the
`RunE` body itself: the events, and whether `Sync` gets to its return.  An
invocation that panics ends the sequence unless `Sync` recovers from it. -/
def syncCallbacks (render : String → Bool) (recovers : Bool) (cb : QRCallback) :
    List String → List Event × Bool
  | [] => ([], true)
  | code :: rest =>
    if (cb.call render code).2 || recovers then
      (Event.onQRCode cb code (cb.call render code).1
          :: (syncCallbacks render recovers cb rest).1,
       (syncCallbacks render recovers cb rest).2)
    else
      ([Event.onQRCode cb code (cb.call render code).1], false)

/-- The options literal built in `newAuthCmd`. -/
def authSyncOptions (v : AuthVars) : SyncOptions :=
  { Mode := if v.follow then .SyncModeFollow else .SyncModeBootstrap
    AllowQR := true
    DownloadMedia := v.downloadMedia
    RefreshContacts := true
    RefreshGroups := true
    IdleExit := v.idleExit
    OnQRCode := { qrFormat := v.qrFormat } }

/-- The statements of the `auth` body after `Sync` has returned `o`: the
error check and the report.  Gives the events and the returned error. -/
def authReport (env : Env) (flags : rootFlags) (o : SyncOutcome) : List Event × Option Err :=
  match o.err with
  | some err => ([], some err)
  | none =>
    if flags.asJSON then
      let v : JSONMap := [("authenticated", .bool true), ("messages_stored", .int o.res.MessagesStored)]
      let r := env.WriteJSON .Stdout v
      ([.WriteJSON .Stdout v r], r)
    else
      ([.out (.print .Stdout ("Authenticated. Messages stored: " ++ toString o.res.MessagesStored ++ "\n"))],
       none)

/-- The `RunE` body of `newAuthCmd`.  The deferred `closeApp` and `stop` run
last, in the reverse order of their `defer` statements; they also run when
a panic of the QR callback unwinds `Sync` and the body, which then returns
nothing. -/
def authRunE (env : Env) (flags : rootFlags) (v : AuthVars) : Run :=
  match env.newApp flags true true with
  | .error err =>
    { trace := [.notifyContext, .newApp flags true true (some err), .stop]
      err := some err
      panicked := false }
  | .ok (a, lk) =>
    let opts := authSyncOptions v
    let o := env.Sync a opts
    let cbs := syncCallbacks env.GenerateHalfBlock o.recovers opts.OnQRCode o.codes
    if cbs.2 then
      let rep := authReport env flags o
      { trace :=
          [.notifyContext, .newApp flags true true none,
           .out (.print .Stderr "Starting authentication…\n"),
           .SyncBegin a opts]
          ++ cbs.1
          ++ [.SyncEnd a o.res o.err]
          ++ rep.1
          ++ [.closeApp a lk, .stop]
        err := rep.2
        panicked := false }
    else
      { trace :=
          [.notifyContext, .newApp flags true true none,
           .out (.print .Stderr "Starting authentication…\n"),
           .SyncBegin a opts]
          ++ cbs.1
          ++ [.closeApp a lk, .stop]
        err := none
        panicked := true }

/-! ## The `auth status` command -/

/-- The statements of the `status` body after `newApp`. -/
def statusBody (env : Env) (flags : rootFlags) (a : App) : List Event × Option Err :=
  match env.OpenWA a with
  | some err => ([.OpenWA a (some err)], some err)
  | none =>
    let authed := env.IsAuthed a
    if flags.asJSON then
      let v : JSONMap := [("authenticated", .bool authed)]
      let r := env.WriteJSON .Stdout v
      ([.OpenWA a none, .IsAuthed a authed, .WriteJSON .Stdout v r], r)
    else if authed then
      ([.OpenWA a none, .IsAuthed a authed, .out (.print .Stdout "Authenticated.\n")], none)
    else
      ([.OpenWA a none, .IsAuthed a authed,
        .out (.print .Stdout "Not authenticated. Run `wacli auth`.\n")], none)

/-- The `RunE` body of `newAuthStatusCmd`. -/
def statusRunE (env : Env) (flags : rootFlags) : Run :=
  match env.newApp flags false true with
  | .error err =>
    { trace := [.withTimeout, .newApp flags false true (some err), .cancel]
      err := some err
      panicked := false }
  | .ok (a, lk) =>
    let b := statusBody env flags a
    { trace := [.withTimeout, .newApp flags false true none] ++ b.1 ++ [.closeApp a lk, .cancel]
      err := b.2
      panicked := false }

/-! ## The `auth logout` command -/

/-- The statements of the `logout` body after `newApp`. -/
def logoutBody (env : Env) (flags : rootFlags) (a : App) : List Event × Option Err :=
  match env.EnsureAuthed a with
  | some err => ([.EnsureAuthed a (some err)], some err)
  | none =>
    match env.Connect a false none with
    | some err => ([.EnsureAuthed a none, .Connect a false none (some err)], some err)
    | none =>
      match env.Logout a with
      | some err =>
        ([.EnsureAuthed a none, .Connect a false none none, .Logout a (some err)], some err)
      | none =>
        if flags.asJSON then
          let v : JSONMap := [("logged_out", .bool true)]
          let r := env.WriteJSON .Stdout v
          ([.EnsureAuthed a none, .Connect a false none none, .Logout a none,
            .WriteJSON .Stdout v r], r)
        else
          ([.EnsureAuthed a none, .Connect a false none none, .Logout a none,
            .out (.print .Stdout "Logged out.\n")], none)

/-- The `RunE` body of `newAuthLogoutCmd`. -/
def logoutRunE (env : Env) (flags : rootFlags) : Run :=
  match env.newApp flags true true with
  | .error err =>
    { trace := [.withTimeout, .newApp flags true true (some err), .cancel]
      err := some err
      panicked := false }
  | .ok (a, lk) =>
    let b := logoutBody env flags a
    { trace := [.withTimeout, .newApp flags true true none] ++ b.1 ++ [.closeApp a lk, .cancel]
      err := b.2
      panicked := false }

/-! ## The command tree -/

/-- The three commands `newAuthCmd` registers: itself and its two children. -/
inductive Command where
  | auth (args : AuthArgs)
  | status
  | logout
deriving DecidableEq, Repr

/-- Running a command: the flag set binds the variables, then `RunE` runs. -/
def runCommand (env : Env) (flags : rootFlags) : Command → Run
  | .auth args => authRunE env flags (bindFlags args)
  | .status => statusRunE env flags
  | .logout => logoutRunE env flags

/-! ## Observations on a trace -/

/-- The option records `Sync` was called with, in program order. -/
def syncCalls : List Event → List SyncOptions
  | [] => []
  | .SyncBegin _ opts :: t => opts :: syncCalls t
  | _ :: t => syncCalls t

/-- The error value a collaborator call returned (`none`: it returned nil,
or the event is not a call that returns an error). -/
def Event.callErr : Event → Option Err
  | .newApp _ _ _ err => err
  | .SyncEnd _ _ err => err
  | .OpenWA _ err => err
  | .EnsureAuthed _ err => err
  | .Connect _ _ _ err => err
  | .Logout _ err => err
  | .WriteJSON _ _ err => err
  | _ => none

/-- The error of the first call of the run that returned one. -/
def firstError : List Event → Option Err
  | [] => none
  | e :: t =>
    match e.callErr with
    | some err => some err
    | none => firstError t

/-- A success report on the output stream: a line the body prints to
`os.Stdout` (status line, confirmation) or a JSON object that
`out.WriteJSON` wrote there without error. -/
def Event.isReport : Event → Bool
  | .out (.print .Stdout _) => true
  | .WriteJSON .Stdout _ none => true
  | _ => false

/-- The calls of `out.WriteJSON` in a run: file, object and result. -/
def jsonWrites : List Event → List (File × JSONMap × Option Err)
  | [] => []
  | .WriteJSON w v err :: t => (w, v, err) :: jsonWrites t
  | _ :: t => jsonWrites t

/-- The strings the `RunE` body itself prints to `os.Stdout`, the writes of
the QR callback not included. -/
def bodyPrints : List Event → List String
  | [] => []
  | .out (.print .Stdout s) :: t => s :: bodyPrints t
  | _ :: t => bodyPrints t

/-- One thing that reached a stream: raw text (or a rendered QR code), or an
object handed to the JSON writer. -/
inductive Item where
  | raw (w : Write)
  | json (v : JSONMap)
deriving DecidableEq, Repr

/-- Whether an item is structured JSON. -/
def Item.isJSON : Item → Bool
  | .raw _ => false
  | .json _ => true

/-- What one event puts on file `f`. -/
def Event.onFile (f : File) : Event → List Item
  | .out w => if w.file = f then [.raw w] else []
  | .onQRCode _ _ ws => (ws.filter (fun w => w.file = f)).map .raw
  | .WriteJSON w v _ => if w = f then [.json v] else []
  | _ => []

/-- Everything a run puts on file `f`, in program order. -/
def onFile (f : File) : List Event → List Item
  | [] => []
  | e :: t => e.onFile f ++ onFile f t

/-- The output contract of the global JSON flag: with the flag the output
stream holds JSON only, without it the output stream holds no JSON. -/
def outputContract (asJSON : Bool) (t : List Event) : Prop :=
  ∀ i ∈ onFile .Stdout t, i.isJSON = asJSON

/-- Events of the context plumbing (`signal.NotifyContext`, `withTimeout`
and their deferred release), which are not collaborator calls. -/
def Event.isContext : Event → Bool
  | .notifyContext => true
  | .stop => true
  | .withTimeout => true
  | .cancel => true
  | _ => false

/-- Whether an event is an invocation of the QR callback. -/
def Event.isCallback : Event → Bool
  | .onQRCode _ _ _ => true
  | _ => false

/-- Whether an event is a call of `closeApp`. -/
def Event.isCloseApp : Event → Bool
  | .closeApp _ _ => true
  | _ => false

/-- An event that is neither a call of `newApp` nor a call of `closeApp`. -/
def Event.isBody : Event → Bool
  | .newApp _ _ _ _ => false
  | .closeApp _ _ => false
  | _ => true

/-- Interactions with the app and its session client: the method calls
and the callback invocations made by `Sync`. -/
def Event.isSession : Event → Bool
  | .SyncBegin _ _ => true
  | .onQRCode _ _ _ => true
  | .SyncEnd _ _ _ => true
  | .OpenWA _ _ => true
  | .IsAuthed _ _ => true
  | .EnsureAuthed _ _ => true
  | .Connect _ _ _ _ => true
  | .Logout _ _ => true
  | _ => false

/-- The kinds of the three session calls of `auth logout`. -/
inductive LogoutStep where
  | EnsureAuthed
  | Connect
  | Logout
deriving DecidableEq, Repr

/-- The kind of a session call, for the three calls `auth logout` makes. -/
def Event.logoutStep : Event → Option LogoutStep
  | .EnsureAuthed _ _ => some .EnsureAuthed
  | .Connect _ _ _ _ => some .Connect
  | .Logout _ _ => some .Logout
  | _ => none

/-! ## Concrete environments -/

/-- An environment in which every call succeeds; `Sync` hands out one
pairing code and stores 42 messages. -/
def okEnv : Env :=
  { newApp := fun _ _ _ => .ok (⟨1⟩, ⟨7⟩)
    Sync := fun _ _ => { codes := ["2@pair"], res := ⟨42⟩, err := none, recovers := false }
    GenerateHalfBlock := fun _ => true
    OpenWA := fun _ => none
    IsAuthed := fun _ => false
    EnsureAuthed := fun _ => none
    Connect := fun _ _ _ => none
    Logout := fun _ => none
    WriteJSON := fun _ _ => none }

/-- As `okEnv`, but the JSON writer fails (the output stream is closed). -/
def brokenPipeEnv : Env :=
  { okEnv with WriteJSON := fun _ _ => some ⟨"write /dev/stdout: broken pipe"⟩ }

/-- A pairing code of 2332 bytes, one more than a QR code of level M holds. -/
def longCode : String := String.mk (List.replicate 2332 'A')

/-- As `okEnv`, but the renderer panics on a code of more than 2331 bytes, and
`Sync` hands out `longCode`. -/
def longCodeEnv : Env :=
  { okEnv with
    Sync := fun _ _ => { codes := [longCode], res := ⟨42⟩, err := none, recovers := false }
    GenerateHalfBlock := fun code => decide (code.utf8ByteSize ≤ 2331) }

/-- No flag of `auth` given on the command line. -/
def noArgs : AuthArgs :=
  { follow := none, idleExit := none, downloadMedia := none, qrFormat := none }

/-! ## Lemmas on the observations -/

theorem syncCalls_append (s t : List Event) : syncCalls (s ++ t) = syncCalls s ++ syncCalls t := by
  induction s with
  | nil => rfl
  | cons e s ih => cases e <;> simp [syncCalls, ih]

theorem syncCalls_authReport (env : Env) (flags : rootFlags) (o : SyncOutcome) :
    syncCalls (authReport env flags o).1 = [] := by
  unfold authReport
  split
  · rfl
  · split <;> rfl

theorem jsonWrites_append (s t : List Event) : jsonWrites (s ++ t) = jsonWrites s ++ jsonWrites t := by
  induction s with
  | nil => rfl
  | cons e s ih => cases e <;> simp [jsonWrites, ih]

theorem bodyPrints_append (s t : List Event) : bodyPrints (s ++ t) = bodyPrints s ++ bodyPrints t := by
  induction s with
  | nil => rfl
  | cons e s ih =>
    cases e with
    | out w =>
      cases w with
      | print f x => cases f <;> simp [bodyPrints, ih]
      | qrHalfBlock c f => simp [bodyPrints, ih]
    | _ => simp [bodyPrints, ih]

theorem mem_syncCalls (a : App) (opts : SyncOptions) (t : List Event)
    (h : Event.SyncBegin a opts ∈ t) : opts ∈ syncCalls t := by
  induction t with
  | nil => simp at h
  | cons e t ih =>
    rcases List.mem_cons.mp h with h1 | h1
    · subst h1
      simp [syncCalls]
    · cases e <;> simp [syncCalls, ih h1]

theorem onFile_append (f : File) (s t : List Event) :
    onFile f (s ++ t) = onFile f s ++ onFile f t := by
  induction s with
  | nil => rfl
  | cons e s ih => simp [onFile, ih]

theorem mem_onFile (f : File) (i : Item) (t : List Event) :
    i ∈ onFile f t ↔ ∃ e ∈ t, i ∈ e.onFile f := by
  induction t with
  | nil => simp [onFile]
  | cons e t ih => simp [onFile, ih]

theorem jsonWrites_authReport (env : Env) (flags : rootFlags) (o : SyncOutcome) (ho : o.err = none) :
    jsonWrites (authReport env flags o).1 =
      (if flags.asJSON then
        [(File.Stdout,
          [("authenticated", JSONValue.bool true), ("messages_stored", JSONValue.int o.res.MessagesStored)],
          env.WriteJSON .Stdout
            [("authenticated", JSONValue.bool true), ("messages_stored", JSONValue.int o.res.MessagesStored)])]
       else []) := by
  unfold authReport
  rw [ho]
  cases flags.asJSON <;> simp [jsonWrites]

theorem bodyPrints_authReport (env : Env) (flags : rootFlags) (o : SyncOutcome) (ho : o.err = none) :
    bodyPrints (authReport env flags o).1 =
      (if flags.asJSON then []
       else ["Authenticated. Messages stored: " ++ toString o.res.MessagesStored ++ "\n"]) := by
  unfold authReport
  rw [ho]
  cases flags.asJSON <;> simp [bodyPrints]

theorem err_authReport (env : Env) (flags : rootFlags) (o : SyncOutcome) (ho : o.err = none) :
    (authReport env flags o).2 =
      (if flags.asJSON then
        env.WriteJSON .Stdout
          [("authenticated", JSONValue.bool true), ("messages_stored", JSONValue.int o.res.MessagesStored)]
       else none) := by
  unfold authReport
  rw [ho]
  cases flags.asJSON <;> simp

theorem firstError_eq_none_iff (t : List Event) :
    firstError t = none ↔ ∀ e ∈ t, e.callErr = none := by
  induction t with
  | nil => simp [firstError]
  | cons e t ih =>
    cases h : e.callErr with
    | none => simp [firstError, h, ih]
    | some err => simp [firstError, h]

theorem syncCalls_callbacks (l : List Event) (h : ∀ e ∈ l, e.isCallback = true) :
    syncCalls l = [] := by
  induction l with
  | nil => rfl
  | cons e l ih =>
    have he := h e (List.mem_cons_self _ _)
    have hl := ih (fun x hx => h x (List.mem_cons_of_mem _ hx))
    cases e <;> simp [Event.isCallback] at he
    simp [syncCalls, hl]

theorem jsonWrites_callbacks (l : List Event) (h : ∀ e ∈ l, e.isCallback = true) :
    jsonWrites l = [] := by
  induction l with
  | nil => rfl
  | cons e l ih =>
    have he := h e (List.mem_cons_self _ _)
    have hl := ih (fun x hx => h x (List.mem_cons_of_mem _ hx))
    cases e <;> simp [Event.isCallback] at he
    simp [jsonWrites, hl]

theorem bodyPrints_callbacks (l : List Event) (h : ∀ e ∈ l, e.isCallback = true) :
    bodyPrints l = [] := by
  induction l with
  | nil => rfl
  | cons e l ih =>
    have he := h e (List.mem_cons_self _ _)
    have hl := ih (fun x hx => h x (List.mem_cons_of_mem _ hx))
    cases e <;> simp [Event.isCallback] at he
    simp [bodyPrints, hl]

theorem firstError_callbacks_append (l t : List Event) (h : ∀ e ∈ l, e.isCallback = true) :
    firstError (l ++ t) = firstError t := by
  induction l with
  | nil => rfl
  | cons e l ih =>
    have he := h e (List.mem_cons_self _ _)
    have hl := ih (fun x hx => h x (List.mem_cons_of_mem _ hx))
    cases e <;> simp [Event.isCallback] at he
    simpa [firstError, Event.callErr] using hl

/-- Every event of `syncCallbacks` is the invocation of the callback on one
of the codes, with the writes of the callback body on that code. -/
theorem mem_syncCallbacks (render : String → Bool) (recovers : Bool) (cb : QRCallback)
    (codes : List String) (e : Event)
    (h : e ∈ (syncCallbacks render recovers cb codes).1) :
    ∃ code ∈ codes, e = Event.onQRCode cb code (cb.call render code).1 := by
  induction codes with
  | nil => simp [syncCallbacks] at h
  | cons c cs ih =>
    unfold syncCallbacks at h
    split at h
    · rcases List.mem_cons.mp h with h1 | h1
      · exact ⟨c, List.mem_cons_self _ _, h1⟩
      · obtain ⟨code, hc, he⟩ := ih h1
        exact ⟨code, List.mem_cons_of_mem _ hc, he⟩
    · rcases List.mem_cons.mp h with h1 | h1
      · exact ⟨c, List.mem_cons_self _ _, h1⟩
      · simp at h1

theorem syncCallbacks_isCallback (render : String → Bool) (recovers : Bool) (cb : QRCallback)
    (codes : List String) :
    ∀ e ∈ (syncCallbacks render recovers cb codes).1, e.isCallback = true := by
  intro e he
  obtain ⟨_, _, rfl⟩ := mem_syncCallbacks render recovers cb codes e he
  rfl

theorem onFile_syncCallbacks (f : File) (render : String → Bool) (recovers : Bool)
    (cb : QRCallback) (codes : List String) (i : Item)
    (h : i ∈ onFile f (syncCallbacks render recovers cb codes).1) :
    ∃ code ∈ codes, ∃ w ∈ (cb.call render code).1, w.file = f ∧ i = .raw w ∧
      Event.onQRCode cb code (cb.call render code).1
        ∈ (syncCallbacks render recovers cb codes).1 := by
  rw [mem_onFile] at h
  obtain ⟨e, he, hi⟩ := h
  obtain ⟨code, hc, rfl⟩ := mem_syncCallbacks render recovers cb codes e he
  simp only [Event.onFile, List.mem_map, List.mem_filter, decide_eq_true_eq] at hi
  obtain ⟨w, ⟨hw, hf⟩, rfl⟩ := hi
  exact ⟨code, hc, w, hw, hf, rfl, he⟩

theorem utf8Len_replicate (n : Nat) : String.utf8Len (List.replicate n 'A') = n := by
  induction n with
  | zero => rfl
  | succ n ih =>
    have h1 : Char.utf8Size 'A' = 1 := by decide
    rw [List.replicate_succ, String.utf8Len_cons, ih, h1]

theorem longCode_utf8ByteSize : longCode.utf8ByteSize = 2332 := by
  unfold longCode
  rw [String.utf8ByteSize_mk]
  exact utf8Len_replicate 2332

theorem longCodeEnv_GenerateHalfBlock (code : String) :
    longCodeEnv.GenerateHalfBlock code = decide (code.utf8ByteSize ≤ 2331) := rfl

/-- The run of `auth` once `newApp` has succeeded and `Sync` returns. -/
theorem authRunE_returned (env : Env) (flags : rootFlags) (v : AuthVars) (a : App) (lk : Lock)
    (h : env.newApp flags true true = .ok (a, lk))
    (hc : (syncCallbacks env.GenerateHalfBlock (env.Sync a (authSyncOptions v)).recovers
            (authSyncOptions v).OnQRCode (env.Sync a (authSyncOptions v)).codes).2 = true) :
    authRunE env flags v =
      { trace :=
          [.notifyContext, .newApp flags true true none,
           .out (.print .Stderr "Starting authentication…\n"),
           .SyncBegin a (authSyncOptions v)]
          ++ (syncCallbacks env.GenerateHalfBlock (env.Sync a (authSyncOptions v)).recovers
                (authSyncOptions v).OnQRCode (env.Sync a (authSyncOptions v)).codes).1
          ++ [.SyncEnd a (env.Sync a (authSyncOptions v)).res (env.Sync a (authSyncOptions v)).err]
          ++ (authReport env flags (env.Sync a (authSyncOptions v))).1
          ++ [.closeApp a lk, .stop]
        err := (authReport env flags (env.Sync a (authSyncOptions v))).2
        panicked := false } := by
  unfold authRunE
  rw [h]
  simp only [hc, if_true]

/-- The run of `auth` once `newApp` has succeeded, when a panic of the QR
callback unwinds `Sync`. -/
theorem authRunE_panicked (env : Env) (flags : rootFlags) (v : AuthVars) (a : App) (lk : Lock)
    (h : env.newApp flags true true = .ok (a, lk))
    (hc : (syncCallbacks env.GenerateHalfBlock (env.Sync a (authSyncOptions v)).recovers
            (authSyncOptions v).OnQRCode (env.Sync a (authSyncOptions v)).codes).2 = false) :
    authRunE env flags v =
      { trace :=
          [.notifyContext, .newApp flags true true none,
           .out (.print .Stderr "Starting authentication…\n"),
           .SyncBegin a (authSyncOptions v)]
          ++ (syncCallbacks env.GenerateHalfBlock (env.Sync a (authSyncOptions v)).recovers
                (authSyncOptions v).OnQRCode (env.Sync a (authSyncOptions v)).codes).1
          ++ [.closeApp a lk, .stop]
        err := none
        panicked := true } := by
  unfold authRunE
  rw [h]
  simp only [hc, Bool.false_eq_true, if_false]

/-- The run of `auth` when `newApp` fails. -/
theorem authRunE_error (env : Env) (flags : rootFlags) (v : AuthVars) (err : Err)
    (h : env.newApp flags true true = .error err) :
    authRunE env flags v =
      { trace := [.notifyContext, .newApp flags true true (some err), .stop]
        err := some err
        panicked := false } := by
  unfold authRunE
  rw [h]

/-- The `Sync` calls of a run of `auth` in which `newApp` succeeds. -/
theorem syncCalls_auth_ok (env : Env) (flags : rootFlags) (v : AuthVars) (a : App) (lk : Lock)
    (h : env.newApp flags true true = .ok (a, lk)) :
    syncCalls (authRunE env flags v).trace = [authSyncOptions v] := by
  cases hc : (syncCallbacks env.GenerateHalfBlock (env.Sync a (authSyncOptions v)).recovers
            (authSyncOptions v).OnQRCode (env.Sync a (authSyncOptions v)).codes).2 with
  | true =>
    rw [authRunE_returned env flags v a lk h hc]
    simp [syncCalls_append, syncCalls_callbacks _ (syncCallbacks_isCallback _ _ _ _),
      syncCalls_authReport, syncCalls]
  | false =>
    rw [authRunE_panicked env flags v a lk h hc]
    simp [syncCalls_append, syncCalls_callbacks _ (syncCallbacks_isCallback _ _ _ _), syncCalls]

/-- In every run of `auth`, whatever `newApp` does, the `Sync` calls are those
of the option record built from the variables, made at most once. -/
theorem syncCalls_auth (env : Env) (flags : rootFlags) (v : AuthVars) :
    syncCalls (authRunE env flags v).trace = [] ∨
      syncCalls (authRunE env flags v).trace = [authSyncOptions v] := by
  cases h : env.newApp flags true true with
  | error err => left; rw [authRunE_error env flags v err h]; rfl
  | ok p =>
    obtain ⟨a, lk⟩ := p
    exact Or.inr (syncCalls_auth_ok env flags v a lk h)

theorem authReport_isBody (env : Env) (flags : rootFlags) (o : SyncOutcome) :
    ∀ e ∈ (authReport env flags o).1, e.isBody = true := by
  unfold authReport
  split
  · simp
  · rcases flags with ⟨_ | _⟩ <;> simp [Event.isBody]

theorem statusBody_isBody (env : Env) (flags : rootFlags) (a : App) :
    ∀ e ∈ (statusBody env flags a).1, e.isBody = true := by
  unfold statusBody
  split
  · simp [Event.isBody]
  · rcases flags with ⟨_ | _⟩
    · simp only [Bool.false_eq_true, if_false]
      split <;> simp [Event.isBody]
    · simp [Event.isBody]

theorem logoutBody_isBody (env : Env) (flags : rootFlags) (a : App) :
    ∀ e ∈ (logoutBody env flags a).1, e.isBody = true := by
  unfold logoutBody
  split
  · simp [Event.isBody]
  · split
    · simp [Event.isBody]
    · split
      · simp [Event.isBody]
      · rcases flags with ⟨_ | _⟩ <;> simp [Event.isBody]

/-- The frame every `RunE` body has when `newApp` succeeds: the context is
set up, `newApp` is called, the body runs, and the two deferred calls run. -/
theorem frame_ok (env : Env) (fl : rootFlags) (p3 p4 : Bool) (a : App) (lk : Lock)
    (first rel : Event) (body : List Event)
    (hfirst : first.isContext = true) (hrel : rel.isContext = true)
    (hbody : ∀ e ∈ body, e.isBody = true)
    (h : env.newApp fl p3 p4 = .ok (a, lk)) :
    (∀ fl1 q3 q4, Event.newApp fl1 q3 q4 none
        ∈ [first, Event.newApp fl p3 p4 none] ++ body ++ [Event.closeApp a lk, rel] →
      ∃ a1 lk1 pre rel1, env.newApp fl1 q3 q4 = .ok (a1, lk1) ∧
        [first, Event.newApp fl p3 p4 none] ++ body ++ [Event.closeApp a lk, rel]
          = pre ++ [Event.closeApp a1 lk1, rel1] ∧
        rel1.isContext = true ∧
        ∀ e ∈ pre, e.isCloseApp = false) ∧
    (∀ fl1 q3 q4 err, Event.newApp fl1 q3 q4 (some err)
        ∈ [first, Event.newApp fl p3 p4 none] ++ body ++ [Event.closeApp a lk, rel] →
      env.newApp fl1 q3 q4 = .error err ∧
      ∀ e ∈ [first, Event.newApp fl p3 p4 none] ++ body ++ [Event.closeApp a lk, rel],
        e.isCloseApp = false) := by
  have key : ∀ fl1 q3 q4 r, Event.newApp fl1 q3 q4 r
        ∈ [first, Event.newApp fl p3 p4 none] ++ body ++ [Event.closeApp a lk, rel] →
      fl1 = fl ∧ q3 = p3 ∧ q4 = p4 ∧ r = none := by
    intro fl1 q3 q4 r hm
    simp only [List.mem_append, List.mem_cons, List.mem_singleton, List.not_mem_nil,
      or_false] at hm
    rcases hm with ((hm | hm) | hm) | hm
    · subst hm
      simp [Event.isContext] at hfirst
    · injection hm with e1 e2 e3 e4
      exact ⟨e1, e2, e3, e4⟩
    · have := hbody _ hm
      simp [Event.isBody] at this
    · rcases hm with hm | hm
      · cases hm
      · subst hm
        simp [Event.isContext] at hrel
  constructor
  · intro fl1 q3 q4 hm
    obtain ⟨rfl, rfl, rfl, _⟩ := key _ _ _ _ hm
    refine ⟨a, lk, [first, Event.newApp fl1 q3 q4 none] ++ body, rel, h, rfl, hrel, ?_⟩
    intro e he
    simp only [List.mem_append, List.mem_cons, List.mem_singleton, List.not_mem_nil,
      or_false] at he
    rcases he with (rfl | rfl) | he
    · cases e <;> simp [Event.isContext] at hfirst <;> rfl
    · rfl
    · have := hbody e he
      cases e <;> simp [Event.isBody] at this <;> rfl
  · intro fl1 q3 q4 err hm
    obtain ⟨_, _, _, hr⟩ := key _ _ _ _ hm
    cases hr

/-- The frame every `RunE` body has when `newApp` fails. -/
theorem frame_error (env : Env) (fl : rootFlags) (p3 p4 : Bool) (err : Err)
    (first rel : Event)
    (hfirst : first.isContext = true) (hrel : rel.isContext = true)
    (h : env.newApp fl p3 p4 = .error err) :
    (∀ fl1 q3 q4, Event.newApp fl1 q3 q4 none ∈ [first, Event.newApp fl p3 p4 (some err), rel] →
      ∃ a1 lk1 pre rel1, env.newApp fl1 q3 q4 = .ok (a1, lk1) ∧
        [first, Event.newApp fl p3 p4 (some err), rel] = pre ++ [Event.closeApp a1 lk1, rel1] ∧
        rel1.isContext = true ∧
        ∀ e ∈ pre, e.isCloseApp = false) ∧
    (∀ fl1 q3 q4 err1, Event.newApp fl1 q3 q4 (some err1)
        ∈ [first, Event.newApp fl p3 p4 (some err), rel] →
      env.newApp fl1 q3 q4 = .error err1 ∧
      ∀ e ∈ [first, Event.newApp fl p3 p4 (some err), rel], e.isCloseApp = false) := by
  have key : ∀ fl1 q3 q4 r, Event.newApp fl1 q3 q4 r
        ∈ [first, Event.newApp fl p3 p4 (some err), rel] →
      fl1 = fl ∧ q3 = p3 ∧ q4 = p4 ∧ r = some err := by
    intro fl1 q3 q4 r hm
    simp only [List.mem_cons, List.mem_singleton, List.not_mem_nil, or_false] at hm
    rcases hm with hm | hm | hm
    · subst hm
      simp [Event.isContext] at hfirst
    · injection hm with e1 e2 e3 e4
      exact ⟨e1, e2, e3, e4⟩
    · subst hm
      simp [Event.isContext] at hrel
  constructor
  · intro fl1 q3 q4 hm
    obtain ⟨_, _, _, hr⟩ := key _ _ _ _ hm
    cases hr
  · intro fl1 q3 q4 err1 hm
    obtain ⟨rfl, rfl, rfl, hr⟩ := key _ _ _ _ hm
    injection hr with hr
    subst hr
    refine ⟨h, ?_⟩
    intro e he
    simp only [List.mem_cons, List.mem_singleton, List.not_mem_nil, or_false] at he
    rcases he with rfl | rfl | rfl
    · cases e <;> simp [Event.isContext] at hfirst <;> rfl
    · rfl
    · cases e <;> simp [Event.isContext] at hrel <;> rfl

/-! ## The claims -/

/-- C1: in every run of `auth` in which `newApp` succeeds, `Sync` is called
exactly once; its `Mode` is `Follow` when `--follow` is set and `Bootstrap`
otherwise, never `Once`, and its `AllowQR` is true in both cases. -/
theorem auth_sync_once_mode (env : Env) (flags : rootFlags) (args : AuthArgs) (a : App) (lk : Lock)
    (h : env.newApp flags true true = .ok (a, lk)) :
    ∃ opts, syncCalls (runCommand env flags (.auth args)).trace = [opts] ∧
      opts.Mode = (if args.follow = some true then SyncMode.SyncModeFollow
                   else SyncMode.SyncModeBootstrap) ∧
      opts.Mode ≠ SyncMode.SyncModeOnce ∧
      opts.AllowQR = true := by
  refine ⟨authSyncOptions (bindFlags args), ?_, ?_, ?_, rfl⟩
  · exact syncCalls_auth_ok env flags (bindFlags args) a lk h
  · rcases args with ⟨_ | _ | _, _, _, _⟩ <;> simp [authSyncOptions, bindFlags]
  · rcases args with ⟨_ | _ | _, _, _, _⟩ <;> simp [authSyncOptions, bindFlags]

/-- Witness of C1: `auth --follow` in the all-succeeding environment. -/
theorem auth_sync_once_mode_witness :
    okEnv.newApp ⟨false⟩ true true = .ok (⟨1⟩, ⟨7⟩) ∧
    ∃ opts, syncCalls (runCommand okEnv ⟨false⟩
        (.auth { noArgs with follow := some true })).trace = [opts] ∧
      opts.Mode = (if ({ noArgs with follow := some true } : AuthArgs).follow = some true
                   then SyncMode.SyncModeFollow else SyncMode.SyncModeBootstrap) ∧
      opts.Mode ≠ SyncMode.SyncModeOnce ∧
      opts.AllowQR = true :=
  ⟨rfl, auth_sync_once_mode okEnv ⟨false⟩ { noArgs with follow := some true } ⟨1⟩ ⟨7⟩ rfl⟩

/-- C2, as stated, fails: with the default `--qr-format` and a pairing code of
2332 bytes, on which the renderer panics, the callback writes the scan
prompt and no rendered QR code, and the run of `auth` ends in that panic. -/
theorem onQRCode_renderer_panic :
    longCodeEnv.GenerateHalfBlock longCode = false ∧
    (authSyncOptions (bindFlags noArgs)).OnQRCode.call longCodeEnv.GenerateHalfBlock longCode
      = ([Write.print .Stderr "\nScan this QR code with WhatsApp (Linked Devices):\n"], false) ∧
    Write.qrHalfBlock longCode .Stderr ∉
      ((authSyncOptions (bindFlags noArgs)).OnQRCode.call
        longCodeEnv.GenerateHalfBlock longCode).1 ∧
    (runCommand longCodeEnv ⟨false⟩ (.auth noArgs)).panicked = true := by
  have hr : longCodeEnv.GenerateHalfBlock longCode = false := by
    rw [longCodeEnv_GenerateHalfBlock, longCode_utf8ByteSize]
    decide
  have hq : (authSyncOptions (bindFlags noArgs)).OnQRCode.qrFormat ≠ "text" := by decide
  have hcall : (authSyncOptions (bindFlags noArgs)).OnQRCode.call
      longCodeEnv.GenerateHalfBlock longCode
      = ([Write.print .Stderr "\nScan this QR code with WhatsApp (Linked Devices):\n"], false) := by
    simp [QRCallback.call, hq, hr]
  refine ⟨hr, hcall, ?_, ?_⟩
  · rw [hcall]
    simp
  · have hc : (syncCallbacks longCodeEnv.GenerateHalfBlock
        (longCodeEnv.Sync ⟨1⟩ (authSyncOptions (bindFlags noArgs))).recovers
        (authSyncOptions (bindFlags noArgs)).OnQRCode
        (longCodeEnv.Sync ⟨1⟩ (authSyncOptions (bindFlags noArgs))).codes).2 = false := by
      show (syncCallbacks longCodeEnv.GenerateHalfBlock false
        (authSyncOptions (bindFlags noArgs)).OnQRCode [longCode]).2 = false
      simp [syncCallbacks, hcall]
    show (authRunE longCodeEnv ⟨false⟩ (bindFlags noArgs)).panicked = true
    rw [authRunE_panicked longCodeEnv ⟨false⟩ (bindFlags noArgs) ⟨1⟩ ⟨7⟩ rfl hc]

/-- C2, amended: for every pairing code handed to the `OnQRCode` callback that
`auth` builds: with `--qr-format=text` the callback writes exactly the code
and a newline to the output stream and nothing to the error stream; with any
other value, the default `terminal` included, it writes the scan prompt to
the error stream and then, when `qrterminal.GenerateHalfBlock` returns, the
rendered QR code and a blank line, and nothing to the output stream; when
the renderer panics the prompt is all it has written, and it does not
return.  Every callback invocation in a run of `auth` makes exactly these
writes. -/
theorem auth_onQRCode_writes (env : Env) (flags : rootFlags) (args : AuthArgs) (code : String) :
    (args.qrFormat = some "text" →
      (authSyncOptions (bindFlags args)).OnQRCode.call env.GenerateHalfBlock code
          = ([Write.print .Stdout (code ++ "\n")], true) ∧
      ((authSyncOptions (bindFlags args)).OnQRCode.call env.GenerateHalfBlock code).1.filter
          (fun w => w.file = File.Stderr) = []) ∧
    (args.qrFormat ≠ some "text" → env.GenerateHalfBlock code = true →
      (authSyncOptions (bindFlags args)).OnQRCode.call env.GenerateHalfBlock code
          = ([Write.print .Stderr "\nScan this QR code with WhatsApp (Linked Devices):\n",
              Write.qrHalfBlock code .Stderr,
              Write.print .Stderr "\n"], true) ∧
      ((authSyncOptions (bindFlags args)).OnQRCode.call env.GenerateHalfBlock code).1.filter
          (fun w => w.file = File.Stdout) = []) ∧
    (args.qrFormat ≠ some "text" → env.GenerateHalfBlock code = false →
      (authSyncOptions (bindFlags args)).OnQRCode.call env.GenerateHalfBlock code
          = ([Write.print .Stderr "\nScan this QR code with WhatsApp (Linked Devices):\n"],
             false)) ∧
    (∀ cb ws, Event.onQRCode cb code ws ∈ (runCommand env flags (.auth args)).trace →
      ws = ((authSyncOptions (bindFlags args)).OnQRCode.call env.GenerateHalfBlock code).1) := by
  have hterm : args.qrFormat ≠ some "text" → args.qrFormat.getD "terminal" ≠ "text" := by
    intro h
    cases hq : args.qrFormat with
    | none => decide
    | some q =>
      intro hq2
      apply h
      rw [hq]
      simpa using hq2
  refine ⟨?_, ?_, ?_, ?_⟩
  · intro h
    simp [authSyncOptions, bindFlags, h, QRCallback.call, Write.file]
  · intro h hr
    simp [authSyncOptions, bindFlags, hterm h, hr, QRCallback.call, Write.file]
  · intro h hr
    simp [authSyncOptions, bindFlags, hterm h, hr, QRCallback.call]
  · intro cb ws hmem
    change Event.onQRCode cb code ws ∈ (authRunE env flags (bindFlags args)).trace at hmem
    have hcb : ∀ a : App, Event.onQRCode cb code ws ∈ (syncCallbacks env.GenerateHalfBlock
        (env.Sync a (authSyncOptions (bindFlags args))).recovers
        (authSyncOptions (bindFlags args)).OnQRCode
        (env.Sync a (authSyncOptions (bindFlags args))).codes).1 →
        ws = ((authSyncOptions (bindFlags args)).OnQRCode.call env.GenerateHalfBlock code).1 := by
      intro a he
      obtain ⟨c, _, hc⟩ := mem_syncCallbacks _ _ _ _ _ he
      injection hc with h1 h2 h3
      rw [h3, h2]
    cases h : env.newApp flags true true with
    | error err =>
      rw [authRunE_error env flags _ err h] at hmem
      simp at hmem
    | ok p =>
      obtain ⟨a, lk⟩ := p
      cases hc : (syncCallbacks env.GenerateHalfBlock
        (env.Sync a (authSyncOptions (bindFlags args))).recovers
        (authSyncOptions (bindFlags args)).OnQRCode
        (env.Sync a (authSyncOptions (bindFlags args))).codes).2 with
      | true =>
        rw [authRunE_returned env flags _ a lk h hc] at hmem
        simp only [List.mem_append, List.mem_cons, List.mem_singleton] at hmem
        rcases hmem with (((hm | hm) | hm) | hm) | hm
        · simp at hm
        · exact hcb a hm
        · simp at hm
        · unfold authReport at hm
          split at hm
          · simp at hm
          · split at hm <;> simp at hm
        · simp at hm
      | false =>
        rw [authRunE_panicked env flags _ a lk h hc] at hmem
        simp only [List.mem_append, List.mem_cons, List.mem_singleton] at hmem
        rcases hmem with (hm | hm) | hm
        · simp at hm
        · exact hcb a hm
        · simp at hm

/-- Witness of C2 amended: the callback of `auth --qr-format=text`, and the
callback of `auth` without the flag, on one code the renderer renders. -/
theorem auth_onQRCode_writes_witness :
    (authSyncOptions (bindFlags { noArgs with qrFormat := some "text" })).OnQRCode.call
        okEnv.GenerateHalfBlock "2@pair"
        = ([Write.print .Stdout ("2@pair" ++ "\n")], true) ∧
    okEnv.GenerateHalfBlock "2@pair" = true ∧
    (authSyncOptions (bindFlags noArgs)).OnQRCode.call okEnv.GenerateHalfBlock "2@pair"
        = ([Write.print .Stderr "\nScan this QR code with WhatsApp (Linked Devices):\n",
            Write.qrHalfBlock "2@pair" .Stderr,
            Write.print .Stderr "\n"], true) :=
  ⟨((auth_onQRCode_writes okEnv ⟨false⟩ { noArgs with qrFormat := some "text" } "2@pair").1 rfl).1,
   rfl,
   ((auth_onQRCode_writes okEnv ⟨false⟩ noArgs "2@pair").2.1 (by decide) rfl).1⟩

/-- C3: in every run of `auth` in which `Sync` returns (no panic of the QR
callback unwinds it) a result without error, in JSON mode the command hands exactly one object to the JSON writer,
on the output stream, with the two keys `authenticated = true` and
`messages_stored = res.MessagesStored`, and prints no line of its own; in
text mode it writes no JSON and the one line it prints is
`Authenticated. Messages stored: N` with `N = res.MessagesStored`. -/
theorem auth_success_report (env : Env) (flags : rootFlags) (args : AuthArgs) (a : App) (lk : Lock)
    (res : SyncResult)
    (h : env.newApp flags true true = .ok (a, lk))
    (hres : (env.Sync a (authSyncOptions (bindFlags args))).res = res)
    (herr : (env.Sync a (authSyncOptions (bindFlags args))).err = none)
    (hret : (runCommand env flags (.auth args)).panicked = false) :
    (flags.asJSON = true →
      jsonWrites (runCommand env flags (.auth args)).trace =
        [(File.Stdout,
          [("authenticated", JSONValue.bool true), ("messages_stored", JSONValue.int res.MessagesStored)],
          (runCommand env flags (.auth args)).err)] ∧
      bodyPrints (runCommand env flags (.auth args)).trace = []) ∧
    (flags.asJSON = false →
      jsonWrites (runCommand env flags (.auth args)).trace = [] ∧
      bodyPrints (runCommand env flags (.auth args)).trace =
        ["Authenticated. Messages stored: " ++ toString res.MessagesStored ++ "\n"] ∧
      (runCommand env flags (.auth args)).err = none) := by
  subst hres
  have hr : runCommand env flags (.auth args) = authRunE env flags (bindFlags args) := rfl
  rw [hr] at hret ⊢
  have hc : (syncCallbacks env.GenerateHalfBlock
        (env.Sync a (authSyncOptions (bindFlags args))).recovers
        (authSyncOptions (bindFlags args)).OnQRCode
        (env.Sync a (authSyncOptions (bindFlags args))).codes).2 = true := by
    cases hc : (syncCallbacks env.GenerateHalfBlock
        (env.Sync a (authSyncOptions (bindFlags args))).recovers
        (authSyncOptions (bindFlags args)).OnQRCode
        (env.Sync a (authSyncOptions (bindFlags args))).codes).2 with
    | true => rfl
    | false =>
      rw [authRunE_panicked env flags _ a lk h hc] at hret
      simp at hret
  rw [authRunE_returned env flags _ a lk h hc]
  have hcb := syncCallbacks_isCallback env.GenerateHalfBlock
    (env.Sync a (authSyncOptions (bindFlags args))).recovers
    (authSyncOptions (bindFlags args)).OnQRCode
    (env.Sync a (authSyncOptions (bindFlags args))).codes
  constructor
  · intro hj
    simp [jsonWrites_append, jsonWrites_callbacks _ hcb, bodyPrints_append,
      bodyPrints_callbacks _ hcb,
      jsonWrites_authReport _ _ _ herr, bodyPrints_authReport _ _ _ herr,
      err_authReport _ _ _ herr, jsonWrites, bodyPrints, hj]
  · intro hj
    simp [jsonWrites_append, jsonWrites_callbacks _ hcb, bodyPrints_append,
      bodyPrints_callbacks _ hcb,
      jsonWrites_authReport _ _ _ herr, bodyPrints_authReport _ _ _ herr,
      err_authReport _ _ _ herr, jsonWrites, bodyPrints, hj]

/-- Witness of C3: `auth` in text mode, `Sync` having stored 42 messages. -/
theorem auth_success_report_witness :
    okEnv.newApp ⟨false⟩ true true = .ok (⟨1⟩, ⟨7⟩) ∧
    (okEnv.Sync ⟨1⟩ (authSyncOptions (bindFlags noArgs))).res = ⟨42⟩ ∧
    (okEnv.Sync ⟨1⟩ (authSyncOptions (bindFlags noArgs))).err = none ∧
    (runCommand okEnv ⟨false⟩ (.auth noArgs)).panicked = false ∧
    bodyPrints (runCommand okEnv ⟨false⟩ (.auth noArgs)).trace =
      ["Authenticated. Messages stored: " ++ toString (42 : Int) ++ "\n"] :=
  ⟨rfl, rfl, rfl, rfl,
   ((auth_success_report okEnv ⟨false⟩ noArgs ⟨1⟩ ⟨7⟩ ⟨42⟩ rfl rfl rfl rfl).2 rfl).2.1⟩

/-- C10: in every run of `auth`, the options `Sync` is called with have
`IdleExit` equal to the value of `--idle-exit`, which is 30 seconds
(30000000000 ns, not zero) when the flag is not given, whether `--follow`
selects `Follow` or not; `DownloadMedia` equals `--download-media`, which is
false by default; `RefreshContacts` and `RefreshGroups` are true. -/
theorem auth_sync_option_values (env : Env) (flags : rootFlags) (args : AuthArgs) (a : App)
    (opts : SyncOptions)
    (h : Event.SyncBegin a opts ∈ (runCommand env flags (.auth args)).trace) :
    opts.IdleExit = args.idleExit.getD (30 * Second) ∧
    (args.idleExit = none → opts.IdleExit = 30000000000 ∧ opts.IdleExit ≠ 0) ∧
    opts.Mode = (if args.follow = some true then SyncMode.SyncModeFollow
                 else SyncMode.SyncModeBootstrap) ∧
    opts.DownloadMedia = args.downloadMedia.getD false ∧
    (args.downloadMedia = none → opts.DownloadMedia = false) ∧
    opts.RefreshContacts = true ∧
    opts.RefreshGroups = true := by
  have hm := mem_syncCalls a opts _ h
  have ho : opts = authSyncOptions (bindFlags args) := by
    rcases syncCalls_auth env flags (bindFlags args) with h0 | h1
    · change opts ∈ syncCalls (authRunE env flags (bindFlags args)).trace at hm
      rw [h0] at hm
      simp at hm
    · change opts ∈ syncCalls (authRunE env flags (bindFlags args)).trace at hm
      rw [h1] at hm
      simpa using hm
  subst ho
  refine ⟨rfl, ?_, ?_, rfl, ?_, rfl, rfl⟩
  · intro hn
    simp [authSyncOptions, bindFlags, hn, Second]
  · rcases args with ⟨_ | _ | _, _, _, _⟩ <;> simp [authSyncOptions, bindFlags]
  · intro hn
    simp [authSyncOptions, bindFlags, hn]

/-- Witness of C10: `auth --follow` with `--idle-exit` not given. -/
theorem auth_sync_option_values_witness :
    Event.SyncBegin ⟨1⟩ (authSyncOptions (bindFlags { noArgs with follow := some true }))
      ∈ (runCommand okEnv ⟨false⟩ (.auth { noArgs with follow := some true })).trace ∧
    (authSyncOptions (bindFlags { noArgs with follow := some true })).IdleExit = 30000000000 ∧
    (authSyncOptions (bindFlags { noArgs with follow := some true })).Mode = SyncMode.SyncModeFollow :=
  ⟨by decide,
   ((auth_sync_option_values okEnv ⟨false⟩ { noArgs with follow := some true } ⟨1⟩ _
      (by decide)).2.1 rfl).1,
   (auth_sync_option_values okEnv ⟨false⟩ { noArgs with follow := some true } ⟨1⟩ _
      (by decide)).2.2.1⟩

/-- C4, as stated, fails: `auth` in JSON mode with `--qr-format=text`, when
`Sync` hands out one pairing code, puts the raw code line and then the JSON
object on the output stream. -/
theorem output_contract_mixed :
    onFile .Stdout (runCommand okEnv ⟨true⟩ (.auth { noArgs with qrFormat := some "text" })).trace
      = [Item.raw (.print .Stdout "2@pair\n"),
         Item.json [("authenticated", .bool true), ("messages_stored", .int 42)]] ∧
    ¬ outputContract true
        (runCommand okEnv ⟨true⟩ (.auth { noArgs with qrFormat := some "text" })).trace := by
  refine ⟨by decide, ?_⟩
  intro hc
  have h := hc (Item.raw (.print .Stdout "2@pair\n")) (by decide)
  simp [Item.isJSON] at h

/-- C4, amended: every item a run of any of the three commands puts on the
output stream follows the contract of the global JSON flag (JSON only when
it is set, no JSON when it is not), except that in `auth` with the JSON flag
and `--qr-format=text` together the output stream also holds the raw line of
each pairing code handed to the QR callback.  So `auth status`, `auth logout`,
and `auth` without that combination keep the contract. -/
theorem output_contract_amended (env : Env) (flags : rootFlags) (cmd : Command) :
    (∀ i ∈ onFile .Stdout (runCommand env flags cmd).trace,
      i.isJSON = flags.asJSON ∨
      (flags.asJSON = true ∧ ∃ args code cb ws, cmd = .auth args ∧ args.qrFormat = some "text" ∧
        Event.onQRCode cb code ws ∈ (runCommand env flags cmd).trace ∧
        i = Item.raw (.print .Stdout (code ++ "\n")))) ∧
    ((∀ args, cmd = .auth args → flags.asJSON = true → args.qrFormat ≠ some "text") →
      outputContract flags.asJSON (runCommand env flags cmd).trace) := by
  have main : ∀ i ∈ onFile .Stdout (runCommand env flags cmd).trace,
      i.isJSON = flags.asJSON ∨
      (flags.asJSON = true ∧ ∃ args code cb ws, cmd = .auth args ∧ args.qrFormat = some "text" ∧
        Event.onQRCode cb code ws ∈ (runCommand env flags cmd).trace ∧
        i = Item.raw (.print .Stdout (code ++ "\n"))) := by
    intro i hi
    cases cmd with
    | status =>
      left
      change i ∈ onFile .Stdout (statusRunE env flags).trace at hi
      unfold statusRunE statusBody at hi
      rcases flags with ⟨_ | _⟩ <;>
        (split at hi
         · simp [onFile, Event.onFile] at hi
         · split at hi
           · simp [onFile, Event.onFile, Write.file] at hi
           · simp only [Bool.false_eq_true, if_false, if_true] at hi
             first
               | (split at hi <;> simp [onFile, Event.onFile, Write.file] at hi <;>
                    simp [hi, Item.isJSON])
               | (simp [onFile, Event.onFile, Write.file] at hi; simp [hi, Item.isJSON]))
    | logout =>
      left
      change i ∈ onFile .Stdout (logoutRunE env flags).trace at hi
      unfold logoutRunE logoutBody at hi
      rcases flags with ⟨_ | _⟩ <;>
        (split at hi
         · simp [onFile, Event.onFile] at hi
         · split at hi
           · simp [onFile, Event.onFile, Write.file] at hi
           · split at hi
             · simp [onFile, Event.onFile, Write.file] at hi
             · split at hi
               · simp [onFile, Event.onFile, Write.file] at hi
               · simp [onFile, Event.onFile, Write.file] at hi
                 simp [hi, Item.isJSON])
    | auth args =>
      have hr : runCommand env flags (.auth args) = authRunE env flags (bindFlags args) := rfl
      rw [hr] at hi ⊢
      cases h : env.newApp flags true true with
      | error err =>
        rw [authRunE_error env flags _ err h] at hi
        simp [onFile, Event.onFile] at hi
      | ok p =>
        obtain ⟨a, lk⟩ := p
        have hcbs : ∀ t : List Event, (∀ e ∈ (syncCallbacks env.GenerateHalfBlock
        (env.Sync a (authSyncOptions (bindFlags args))).recovers
        (authSyncOptions (bindFlags args)).OnQRCode
        (env.Sync a (authSyncOptions (bindFlags args))).codes).1, e ∈ t) → i ∈ onFile .Stdout (syncCallbacks env.GenerateHalfBlock
        (env.Sync a (authSyncOptions (bindFlags args))).recovers
        (authSyncOptions (bindFlags args)).OnQRCode
        (env.Sync a (authSyncOptions (bindFlags args))).codes).1 →
            i.isJSON = flags.asJSON ∨
            (flags.asJSON = true ∧ ∃ args1 code cb ws, Command.auth args = .auth args1 ∧
              args1.qrFormat = some "text" ∧ Event.onQRCode cb code ws ∈ t ∧
              i = Item.raw (.print .Stdout (code ++ "\n"))) := by
          intro t ht hi
          obtain ⟨code, _, w, hw, hf, rfl, hev⟩ := onFile_syncCallbacks _ _ _ _ _ _ hi
          by_cases hq : (bindFlags args).qrFormat = "text"
          · have hw2 : w = Write.print .Stdout (code ++ "\n") := by
              simpa [authSyncOptions, QRCallback.call, hq] using hw
            subst hw2
            cases hj : flags.asJSON with
            | false => left; rfl
            | true =>
              right
              refine ⟨rfl, args, code, _, _, rfl, ?_, ht _ hev, rfl⟩
              cases ha : args.qrFormat with
              | none => rw [bindFlags, ha] at hq; simp at hq
              | some q => rw [bindFlags, ha] at hq; simpa using hq
          · exfalso
            cases hr : env.GenerateHalfBlock code with
            | true =>
              simp [authSyncOptions, QRCallback.call, hq, hr] at hw
              rcases hw with rfl | rfl | rfl <;> simp [Write.file] at hf
            | false =>
              simp [authSyncOptions, QRCallback.call, hq, hr] at hw
              subst hw
              simp [Write.file] at hf
        cases hc : (syncCallbacks env.GenerateHalfBlock
        (env.Sync a (authSyncOptions (bindFlags args))).recovers
        (authSyncOptions (bindFlags args)).OnQRCode
        (env.Sync a (authSyncOptions (bindFlags args))).codes).2 with
        | true =>
          rw [authRunE_returned env flags _ a lk h hc] at hi ⊢
          simp only [onFile_append, List.mem_append] at hi
          rcases hi with (((hi | hi) | hi) | hi) | hi
          · simp [onFile, Event.onFile, Write.file] at hi
          · refine hcbs _ ?_ hi
            intro e he
            simp only [List.mem_append]
            exact Or.inl (Or.inl (Or.inl (Or.inr he)))
          · simp [onFile, Event.onFile] at hi
          · left
            unfold authReport at hi
            split at hi
            · simp [onFile] at hi
            · rcases flags with ⟨_ | _⟩ <;>
                simp [onFile, Event.onFile, Write.file] at hi <;> simp [hi, Item.isJSON]
          · simp [onFile, Event.onFile] at hi
        | false =>
          rw [authRunE_panicked env flags _ a lk h hc] at hi ⊢
          simp only [onFile_append, List.mem_append] at hi
          rcases hi with (hi | hi) | hi
          · simp [onFile, Event.onFile, Write.file] at hi
          · refine hcbs _ ?_ hi
            intro e he
            simp only [List.mem_append]
            exact Or.inl (Or.inr he)
          · simp [onFile, Event.onFile] at hi
  refine ⟨main, ?_⟩
  intro hno i hi
  rcases main i hi with h1 | ⟨hj, args, _, _, _, hcmd, hq, _, _⟩
  · exact h1
  · exact absurd hq (hno args hcmd hj)

/-- Witness of C4 amended: `auth --qr-format=text` in text mode keeps the
contract, and so does `auth status` in JSON mode. -/
theorem output_contract_amended_witness :
    outputContract false
      (runCommand okEnv ⟨false⟩ (.auth { noArgs with qrFormat := some "text" })).trace ∧
    outputContract true (runCommand okEnv ⟨true⟩ .status).trace :=
  ⟨(output_contract_amended okEnv ⟨false⟩ (.auth { noArgs with qrFormat := some "text" })).2
      (by intro _ _ hj; exact absurd hj (by decide)),
   (output_contract_amended okEnv ⟨true⟩ .status).2 (by intro _ hc; exact Command.noConfusion hc)⟩

/-- C5: for each of the three commands, the returned error is the error of
the first collaborator call that returned one (`newApp`, `Sync`, `OpenWA`,
`EnsureAuthed`, `Connect`, `Logout` or the JSON writer), unchanged, and nil
when none did; so an error is returned if and only if some call returned an
error; and when an error is returned no success report (a line printed to
the output stream, or a JSON object written there without error) is in the
run.  A run of `auth` that a panic of the QR callback ends returns nothing:
no call of it returned an error and it holds no report. -/
theorem command_error_propagation (env : Env) (flags : rootFlags) (cmd : Command) :
    (runCommand env flags cmd).err = firstError (runCommand env flags cmd).trace ∧
    ((runCommand env flags cmd).err ≠ none ↔
      ∃ e ∈ (runCommand env flags cmd).trace, e.callErr ≠ none) ∧
    ((runCommand env flags cmd).err ≠ none →
      ∀ e ∈ (runCommand env flags cmd).trace, e.isReport = false) := by
  have h1 : (runCommand env flags cmd).err = firstError (runCommand env flags cmd).trace ∧
      ((runCommand env flags cmd).err ≠ none →
        ∀ e ∈ (runCommand env flags cmd).trace, e.isReport = false) := by
    cases cmd with
    | status =>
      change (statusRunE env flags).err = firstError (statusRunE env flags).trace ∧
        ((statusRunE env flags).err ≠ none → ∀ e ∈ (statusRunE env flags).trace, e.isReport = false)
      unfold statusRunE statusBody
      rcases flags with ⟨_ | _⟩ <;>
        (split
         · simp [firstError, Event.callErr, Event.isReport]
         · split
           · simp [firstError, Event.callErr, Event.isReport]
           · simp only [Bool.false_eq_true, if_false, if_true]
             first
               | (split <;> simp [firstError, Event.callErr, Event.isReport])
               | (cases hw : env.WriteJSON File.Stdout _ <;>
                    simp [firstError, Event.callErr, Event.isReport, hw]))
    | logout =>
      change (logoutRunE env flags).err = firstError (logoutRunE env flags).trace ∧
        ((logoutRunE env flags).err ≠ none → ∀ e ∈ (logoutRunE env flags).trace, e.isReport = false)
      unfold logoutRunE logoutBody
      rcases flags with ⟨_ | _⟩ <;>
        (split
         · simp [firstError, Event.callErr, Event.isReport]
         · split
           · simp [firstError, Event.callErr, Event.isReport]
           · split
             · simp [firstError, Event.callErr, Event.isReport]
             · split
               · simp [firstError, Event.callErr, Event.isReport]
               · simp only [Bool.false_eq_true, if_false, if_true]
                 first
                   | (simp [firstError, Event.callErr, Event.isReport]; done)
                   | (cases hw : env.WriteJSON File.Stdout _ <;>
                        simp [firstError, Event.callErr, Event.isReport, hw]))
    | auth args =>
      have hr : runCommand env flags (.auth args) = authRunE env flags (bindFlags args) := rfl
      rw [hr]
      cases h : env.newApp flags true true with
      | error err =>
        rw [authRunE_error env flags _ err h]
        simp [firstError, Event.callErr, Event.isReport]
      | ok p =>
        obtain ⟨a, lk⟩ := p
        have hcb := syncCallbacks_isCallback env.GenerateHalfBlock
          (env.Sync a (authSyncOptions (bindFlags args))).recovers
          (authSyncOptions (bindFlags args)).OnQRCode
          (env.Sync a (authSyncOptions (bindFlags args))).codes
        have hrep : ∀ e ∈ (syncCallbacks env.GenerateHalfBlock
        (env.Sync a (authSyncOptions (bindFlags args))).recovers
        (authSyncOptions (bindFlags args)).OnQRCode
        (env.Sync a (authSyncOptions (bindFlags args))).codes).1, e.isReport = false := by
          intro e he
          have := hcb e he
          cases e <;> simp [Event.isCallback] at this
          rfl
        cases hc : (syncCallbacks env.GenerateHalfBlock
        (env.Sync a (authSyncOptions (bindFlags args))).recovers
        (authSyncOptions (bindFlags args)).OnQRCode
        (env.Sync a (authSyncOptions (bindFlags args))).codes).2 with
        | false =>
          rw [authRunE_panicked env flags _ a lk h hc]
          simp only [List.append_assoc, List.cons_append, List.nil_append]
          simp [firstError, Event.callErr, firstError_callbacks_append _ _ hcb]
        | true =>
          rw [authRunE_returned env flags _ a lk h hc]
          simp only [List.append_assoc, List.cons_append, List.nil_append]
          unfold authReport
          split
          · rename_i err herr
            simp [firstError, Event.callErr, Event.isReport,
              firstError_callbacks_append _ _ hcb, herr]
            rintro _ (he | rfl | rfl | rfl)
            · exact hrep _ he
            · rfl
            · rfl
            · rfl
          · rename_i herr
            rcases flags with ⟨_ | _⟩
            · simp [firstError, Event.callErr, Event.isReport,
                firstError_callbacks_append _ _ hcb, herr]
            · simp only [if_true]
              cases hw : env.WriteJSON File.Stdout _ <;>
                simp [firstError, Event.callErr, Event.isReport,
                  firstError_callbacks_append _ _ hcb, herr, hw]
              rintro _ (he | rfl | rfl | rfl | rfl)
              · exact hrep _ he
              · rfl
              · rfl
              · rfl
              · rfl
  refine ⟨h1.1, ?_, h1.2⟩
  rw [h1.1]
  constructor
  · intro hne
    by_contra hall
    apply hne
    rw [firstError_eq_none_iff]
    intro e he
    by_contra hc
    exact hall ⟨e, he, hc⟩
  · rintro ⟨e, he, hc⟩ hnone
    rw [firstError_eq_none_iff] at hnone
    exact hc (hnone e he)

/-- C6, as stated, fails: `auth status` in JSON mode, with `newApp` and
`OpenWA` succeeding, returns the error of the JSON writer when that fails. -/
theorem status_json_writer_error :
    brokenPipeEnv.newApp ⟨true⟩ false true = .ok (⟨1⟩, ⟨7⟩) ∧
    brokenPipeEnv.OpenWA ⟨1⟩ = none ∧
    (runCommand brokenPipeEnv ⟨true⟩ .status).err = some ⟨"write /dev/stdout: broken pipe"⟩ ∧
    (runCommand brokenPipeEnv ⟨true⟩ .status).err ≠ none :=
  ⟨rfl, rfl, rfl, by decide⟩

/-- C6, amended: in every run of `auth status` in which `newApp` and `OpenWA`
succeed, with `b` the value `IsAuthed` returns: in JSON mode the command
hands exactly the object `{authenticated: b}` to the JSON writer, prints no
line of its own, and returns what the JSON writer returned (no error when
the write succeeds); in text mode it writes no JSON, prints
`Authenticated.` when `b` is true and the hint to run `wacli auth` when `b`
is false, and returns no error.  In neither mode does `b = false` make an
error. -/
theorem status_report (env : Env) (flags : rootFlags) (a : App) (lk : Lock) (b : Bool)
    (h : env.newApp flags false true = .ok (a, lk))
    (ho : env.OpenWA a = none)
    (hb : env.IsAuthed a = b) :
    Event.IsAuthed a b ∈ (runCommand env flags .status).trace ∧
    (flags.asJSON = true →
      jsonWrites (runCommand env flags .status).trace =
        [(File.Stdout, [("authenticated", JSONValue.bool b)],
          env.WriteJSON .Stdout [("authenticated", JSONValue.bool b)])] ∧
      bodyPrints (runCommand env flags .status).trace = [] ∧
      (runCommand env flags .status).err =
        env.WriteJSON .Stdout [("authenticated", JSONValue.bool b)]) ∧
    (flags.asJSON = false →
      jsonWrites (runCommand env flags .status).trace = [] ∧
      bodyPrints (runCommand env flags .status).trace =
        [if b = true then "Authenticated.\n" else "Not authenticated. Run `wacli auth`.\n"] ∧
      (runCommand env flags .status).err = none) := by
  subst hb
  have hr : runCommand env flags .status = statusRunE env flags := rfl
  rw [hr]
  unfold statusRunE statusBody
  rw [h]
  simp only [ho]
  rcases flags with ⟨_ | _⟩
  · cases hb : env.IsAuthed a <;> simp [jsonWrites, bodyPrints]
  · simp [jsonWrites, bodyPrints]

/-- Witness of C6 amended: `auth status` in text mode on a session that is
not authenticated prints the hint and returns no error. -/
theorem status_report_witness :
    okEnv.newApp ⟨false⟩ false true = .ok (⟨1⟩, ⟨7⟩) ∧
    okEnv.OpenWA ⟨1⟩ = none ∧
    okEnv.IsAuthed ⟨1⟩ = false ∧
    bodyPrints (runCommand okEnv ⟨false⟩ .status).trace =
      [if false = true then "Authenticated.\n" else "Not authenticated. Run `wacli auth`.\n"] ∧
    (runCommand okEnv ⟨false⟩ .status).err = none :=
  ⟨rfl, rfl, rfl,
   ((status_report okEnv ⟨false⟩ ⟨1⟩ ⟨7⟩ false rfl rfl rfl).2.2 rfl).2⟩

/-- C9: a run of `auth status` never triggers pairing: it makes no call of
`Sync`, `Connect`, `Logout` or `EnsureAuthed`, no QR callback is invoked and
no QR code is rendered; its session interactions are none (when `newApp`
fails), `OpenWA` alone (when `OpenWA` fails), or `OpenWA` followed by one
`IsAuthed` read. -/
theorem status_never_pairs (env : Env) (flags : rootFlags) :
    ((runCommand env flags .status).trace.filter Event.isSession = [] ∨
     (∃ a err, (runCommand env flags .status).trace.filter Event.isSession
        = [Event.OpenWA a (some err)]) ∨
     (∃ a, (runCommand env flags .status).trace.filter Event.isSession
        = [Event.OpenWA a none, Event.IsAuthed a (env.IsAuthed a)])) ∧
    (∀ a opts, Event.SyncBegin a opts ∉ (runCommand env flags .status).trace) ∧
    (∀ a res err, Event.SyncEnd a res err ∉ (runCommand env flags .status).trace) ∧
    (∀ a q cb err, Event.Connect a q cb err ∉ (runCommand env flags .status).trace) ∧
    (∀ a err, Event.Logout a err ∉ (runCommand env flags .status).trace) ∧
    (∀ a err, Event.EnsureAuthed a err ∉ (runCommand env flags .status).trace) ∧
    (∀ cb code ws, Event.onQRCode cb code ws ∉ (runCommand env flags .status).trace) ∧
    (∀ code w, Event.out (.qrHalfBlock code w) ∉ (runCommand env flags .status).trace) := by
  have hr : runCommand env flags .status = statusRunE env flags := rfl
  rw [hr]
  unfold statusRunE statusBody
  rcases flags with ⟨_ | _⟩ <;>
    (split
     · simp [Event.isSession]
     · split
       · simp [Event.isSession]
       · simp only [Bool.false_eq_true, if_false, if_true]
         first
           | (split <;> simp [Event.isSession])
           | simp [Event.isSession])

/-- C7: in every run of `auth logout` the session calls are made in the order
`EnsureAuthed`, `Connect`, `Logout`, each only after the one before returned
no error and then always: a failed `EnsureAuthed` leaves no `Connect` and no
`Logout` in the run, a failed `Connect` leaves no `Logout`; `Connect` is
always called with `allowQR = false` and a nil QR callback; and the run has
no other session interaction (no `Sync`, no callback invocation). -/
theorem logout_call_order (env : Env) (flags : rootFlags) :
    ((runCommand env flags .logout).trace.filterMap Event.logoutStep
      <+: [LogoutStep.EnsureAuthed, LogoutStep.Connect, LogoutStep.Logout]) ∧
    (∀ e ∈ ((runCommand env flags .logout).trace.filter
        (fun e => e.logoutStep.isSome)).dropLast, e.callErr = none) ∧
    (∀ a q cb err, Event.Connect a q cb err ∈ (runCommand env flags .logout).trace →
      q = false ∧ cb = none) ∧
    (∀ a err, Event.EnsureAuthed a (some err) ∈ (runCommand env flags .logout).trace →
      ∀ e ∈ (runCommand env flags .logout).trace,
        e.logoutStep ≠ some .Connect ∧ e.logoutStep ≠ some .Logout) ∧
    (∀ a q cb err, Event.Connect a q cb (some err) ∈ (runCommand env flags .logout).trace →
      ∀ e ∈ (runCommand env flags .logout).trace, e.logoutStep ≠ some .Logout) ∧
    (∀ a, Event.EnsureAuthed a none ∈ (runCommand env flags .logout).trace →
      Event.Connect a false none (env.Connect a false none)
        ∈ (runCommand env flags .logout).trace) ∧
    (∀ a, Event.Connect a false none none ∈ (runCommand env flags .logout).trace →
      Event.Logout a (env.Logout a) ∈ (runCommand env flags .logout).trace) ∧
    (∀ e ∈ (runCommand env flags .logout).trace,
      e.isSession = true → e.logoutStep.isSome = true) := by
  have hr : runCommand env flags .logout = logoutRunE env flags := rfl
  rw [hr]
  unfold logoutRunE logoutBody
  rcases flags with ⟨_ | _⟩ <;>
    (split
     · simp [Event.logoutStep, Event.isSession, Event.callErr]
     · split
       · simp [Event.logoutStep, Event.isSession, Event.callErr]
       · rename_i h1
         split
         · rename_i h2
           simp [Event.logoutStep, Event.isSession, Event.callErr, h2]
           intros; assumption
         · rename_i h2
           split
           · rename_i h3
             simp [Event.logoutStep, Event.isSession, Event.callErr, h2, h3]
             intros; assumption
           · rename_i h3
             simp [Event.logoutStep, Event.isSession, Event.callErr, h2, h3]
             intros; assumption)

/-- C8: for each of the three commands and every exit path: when `newApp`
succeeded, the run ends with `closeApp` on the app and lock `newApp`
returned, followed only by the deferred release of the context; `closeApp`
is called nowhere before, so exactly once, after every other collaborator
call and every output, also when a panic of the QR callback ends the run.
When `newApp` failed, `closeApp` is never called. -/
theorem closeApp_once_last (env : Env) (flags : rootFlags) (cmd : Command) :
    (∀ fl p3 p4, Event.newApp fl p3 p4 none ∈ (runCommand env flags cmd).trace →
      ∃ a lk pre rel, env.newApp fl p3 p4 = .ok (a, lk) ∧
        (runCommand env flags cmd).trace = pre ++ [Event.closeApp a lk, rel] ∧
        rel.isContext = true ∧
        ∀ e ∈ pre, e.isCloseApp = false) ∧
    (∀ fl p3 p4 err, Event.newApp fl p3 p4 (some err) ∈ (runCommand env flags cmd).trace →
      env.newApp fl p3 p4 = .error err ∧
      ∀ e ∈ (runCommand env flags cmd).trace, e.isCloseApp = false) := by
  cases cmd with
  | status =>
    have hr : runCommand env flags .status = statusRunE env flags := rfl
    rw [hr]
    unfold statusRunE
    split
    · rename_i err h
      exact frame_error env flags false true err .withTimeout .cancel rfl rfl h
    · rename_i a lk h
      have hf := frame_ok env flags false true a lk .withTimeout .cancel
        (statusBody env flags a).1 rfl rfl (statusBody_isBody env flags a) h
      simpa using hf
  | logout =>
    have hr : runCommand env flags .logout = logoutRunE env flags := rfl
    rw [hr]
    unfold logoutRunE
    split
    · rename_i err h
      exact frame_error env flags true true err .withTimeout .cancel rfl rfl h
    · rename_i a lk h
      have hf := frame_ok env flags true true a lk .withTimeout .cancel
        (logoutBody env flags a).1 rfl rfl (logoutBody_isBody env flags a) h
      simpa using hf
  | auth args =>
    have hr : runCommand env flags (.auth args) = authRunE env flags (bindFlags args) := rfl
    rw [hr]
    cases h : env.newApp flags true true with
    | error err =>
      rw [authRunE_error env flags _ err h]
      exact frame_error env flags true true err .notifyContext .stop rfl rfl h
    | ok p =>
      obtain ⟨a, lk⟩ := p
      have hcb := syncCallbacks_isCallback env.GenerateHalfBlock
        (env.Sync a (authSyncOptions (bindFlags args))).recovers
        (authSyncOptions (bindFlags args)).OnQRCode
        (env.Sync a (authSyncOptions (bindFlags args))).codes
      have hbody : ∀ e ∈ (syncCallbacks env.GenerateHalfBlock
        (env.Sync a (authSyncOptions (bindFlags args))).recovers
        (authSyncOptions (bindFlags args)).OnQRCode
        (env.Sync a (authSyncOptions (bindFlags args))).codes).1, e.isBody = true := by
        intro e he
        have := hcb e he
        cases e <;> simp [Event.isCallback] at this
        rfl
      cases hc : (syncCallbacks env.GenerateHalfBlock
        (env.Sync a (authSyncOptions (bindFlags args))).recovers
        (authSyncOptions (bindFlags args)).OnQRCode
        (env.Sync a (authSyncOptions (bindFlags args))).codes).2 with
      | true =>
        rw [authRunE_returned env flags _ a lk h hc]
        have hf := frame_ok env flags true true a lk .notifyContext .stop
          ([.out (.print .Stderr "Starting authentication…\n"),
            .SyncBegin a (authSyncOptions (bindFlags args))]
            ++ (syncCallbacks env.GenerateHalfBlock
        (env.Sync a (authSyncOptions (bindFlags args))).recovers
        (authSyncOptions (bindFlags args)).OnQRCode
        (env.Sync a (authSyncOptions (bindFlags args))).codes).1
            ++ [.SyncEnd a (env.Sync a (authSyncOptions (bindFlags args))).res
                  (env.Sync a (authSyncOptions (bindFlags args))).err]
            ++ (authReport env flags (env.Sync a (authSyncOptions (bindFlags args)))).1)
          rfl rfl ?_ h
        · simpa using hf
        · intro e he
          simp only [List.mem_append, List.mem_cons, List.mem_singleton] at he
          rcases he with ((he | he) | he) | he
          · rcases he with rfl | rfl | he
            · rfl
            · rfl
            · simp at he
          · exact hbody e he
          · rcases he with rfl | he
            · rfl
            · simp at he
          · exact authReport_isBody env flags _ e he
      | false =>
        rw [authRunE_panicked env flags _ a lk h hc]
        have hf := frame_ok env flags true true a lk .notifyContext .stop
          ([.out (.print .Stderr "Starting authentication…\n"),
            .SyncBegin a (authSyncOptions (bindFlags args))]
            ++ (syncCallbacks env.GenerateHalfBlock
        (env.Sync a (authSyncOptions (bindFlags args))).recovers
        (authSyncOptions (bindFlags args)).OnQRCode
        (env.Sync a (authSyncOptions (bindFlags args))).codes).1)
          rfl rfl ?_ h
        · simpa using hf
        · intro e he
          simp only [List.mem_append, List.mem_cons, List.mem_singleton] at he
          rcases he with he | he
          · rcases he with rfl | rfl | he
            · rfl
            · rfl
            · simp at he
          · exact hbody e he

end Wacli
